import Mathlib

/-!
# MoleSearch: a shallow embedding of the core subsystems

This file embeds, in Lean 4, the parts of the MoleSearch repository that the
verified claims are about:

* the embedding-label to vector-field mapping and the hybrid query builder of
  the Elasticsearch engine (`api/search_engine/elasticsearch/es.py`),
* the enrichment pipeline (`api/processor/pipelines/mm_extractor.py`) with its
  pluggable model adapters, the ASR adapter's catch-and-substitute behaviour
  (`api/processor/plugins/asr/aliyun.py`),
* the Redis-backed task manager (`api/utils/async_task_manager.py`),
* the async worker's batch-insert processing (`api/workers/async_worker.py`),
* the search-service facade's insert paths (`api/handlers/search_service.py`).

Python strings are Lean `String`s (with `""` standing for both `None` and the
empty string wherever the source only tests truthiness), machine floats that
carry progress/score arithmetic are `ℚ`, timestamps are `Nat` clock readings
passed explicitly, and fallible calls return `Except`.
-/

/-! ## String helpers (Python `in` and `str.lower`) -/

/-- Python's substring test `needle in hay` on lists of characters. -/
def containsSub (needle : List Char) : List Char → Bool
  | [] => needle.isPrefixOf []
  | c :: rest => needle.isPrefixOf (c :: rest) || containsSub needle rest

/-- Python's `needle in hay` for strings. -/
def strContains (hay needle : String) : Bool :=
  containsSub needle.data hay.data

/-- Python's `str.lower()` (ASCII case folding suffices for the labels used). -/
def strLower (s : String) : String :=
  ⟨s.data.map Char.toLower⟩

/-! ## Embedding label → field mapping

`ESSearchEngine._get_embedding_field` of
`api/search_engine/elasticsearch/es.py`, lines 234-249, translated branch by
branch in the source's order: the `text`/`tembed` test comes first, so the
later `image_text`/`video_text` branches are unreachable. -/

/-- The code's label-to-field rule table (`_get_embedding_field`). -/
def get_embedding_field (label : String) : String :=
  let label_lower := strLower label
  if strContains label_lower "text" || strContains label_lower "tembed" then
    "text_embedding"
  else if strContains label_lower "image" || strContains label_lower "img" ||
      strContains label_lower "iembed" then
    "image_embedding"
  else if strContains label_lower "video" || strContains label_lower "vid" ||
      strContains label_lower "vembed" then
    "video_embedding"
  else if strContains label_lower "image_text" || strContains label_lower "img_text" then
    "image_text_embedding"
  else if strContains label_lower "video_text" || strContains label_lower "vid_text" then
    "video_text_embedding"
  else
    "text_embedding"

/-- The rule table in the order the specification states it (spec §4.3):
`image_text`/`img_text` first, then `video_text`/`vid_text`, then
`text`/`tembed`, then `image`/`img`/`iembed`, then `video`/`vid`/`vembed`,
otherwise the text field.  The spec's "image-caption vector field" is the
index field `image_text_embedding` and its "video-transcript vector field" is
`video_transcript_embedding` alias `video_text_embedding`.  This definition
follows the specification's words and exists only to be compared with
`get_embedding_field`, which follows the code. -/
def spec_label_mapping (label : String) : String :=
  let label_lower := strLower label
  if strContains label_lower "image_text" || strContains label_lower "img_text" then
    "image_text_embedding"
  else if strContains label_lower "video_text" || strContains label_lower "vid_text" then
    "video_text_embedding"
  else if strContains label_lower "text" || strContains label_lower "tembed" then
    "text_embedding"
  else if strContains label_lower "image" || strContains label_lower "img" ||
      strContains label_lower "iembed" then
    "image_embedding"
  else if strContains label_lower "video" || strContains label_lower "vid" ||
      strContains label_lower "vembed" then
    "video_embedding"
  else
    "text_embedding"

/-! ## The indexed document and the hybrid query

`ESSearchEngine.search` (es.py lines 113-194), `ESSearchEngine.insert`
(lines 196-232) and `ESSearchEngine.batch_insert` (lines 251-299).  The
Elasticsearch server itself is external: a search backend is a function from
the issued query and requested size to a list of hits or an error, and an
insert is an append to the list of stored documents. -/

/-- A dense vector. -/
abbrev Emb := List ℚ

/-- A labeled embedding (`EmbeddingInfo` of `search_engine/base.py`). -/
structure EmbeddingInfo where
  label : String
  embedding : Emb
deriving DecidableEq

/-- `SearchInput`: optional query text (empty = absent), labeled vectors,
`topk`. -/
structure SearchInput where
  text : String
  embeddings : List EmbeddingInfo
  topk : Nat
deriving DecidableEq

/-- The shape of the query body the engine sends to the store. -/
inductive ESQuery where
  | matchAll : ESQuery
  | multiMatch (query : String) (fields : List String) (matchType : String) : ESQuery
  | scriptScore (field : String) (query_vector : Emb) : ESQuery
  | boolShould (clauses : List ESQuery) (minimum_should_match : Nat) : ESQuery

/-- A document stored in the index: the five lexical/URL fields and up to five
dense vectors (absent vectors are `none`, never zero vectors). -/
structure Doc where
  text : String
  image : String
  video : String
  image_text : String
  video_text : String
  text_embedding : Option Emb
  image_embedding : Option Emb
  video_embedding : Option Emb
  image_text_embedding : Option Emb
  video_text_embedding : Option Emb
deriving DecidableEq

/-- The clause list `should_queries` built by `ESSearchEngine.search`
(es.py lines 117-148): a `multi_match` over `text^2`/`image_text`/`video_text`
when the query text is non-empty, then one cosine `script_score` clause per
labeled vector with non-empty label and non-empty vector. -/
def buildClauses (input : SearchInput) : List ESQuery :=
  (if input.text ≠ "" then
    [ESQuery.multiMatch input.text ["text^2", "image_text", "video_text"] "best_fields"]
  else []) ++
  input.embeddings.filterMap (fun e =>
    if e.label ≠ "" ∧ e.embedding ≠ [] then
      let field_name := get_embedding_field e.label
      if field_name ≠ "" then some (ESQuery.scriptScore field_name e.embedding)
      else none
    else none)

/-- The final query (es.py lines 150-161): no clause gives match-all, exactly
one clause is issued bare, two or more clauses are wrapped in a `should`
disjunction with `minimum_should_match` 1. -/
def buildQuery (input : SearchInput) : ESQuery :=
  match buildClauses input with
  | [] => ESQuery.matchAll
  | [q] => q
  | qs => ESQuery.boolShould qs 1

/-- One item of a search result (`SearchOutputItem`). -/
structure SearchOutputItem where
  text : String
  image : String
  video : String
  image_text : String
  video_text : String
  score : ℚ
deriving DecidableEq

/-- A search result (`SearchOutput`). -/
structure SearchOutput where
  items : List SearchOutputItem
deriving DecidableEq

/-- Parsing one hit (`_source` plus `_score`) into an output item
(es.py lines 178-188). -/
def hitToItem (h : Doc × ℚ) : SearchOutputItem :=
  ⟨h.1.text, h.1.image, h.1.video, h.1.image_text, h.1.video_text, h.2⟩

/-- `ESSearchEngine.search` (es.py lines 163-194): issue the built query with
`size = topk`; parse the hits; on ANY backend exception, print and return an
empty `SearchOutput` — the error does not propagate. -/
def es_search (input : SearchInput)
    (backend : ESQuery → Nat → Except String (List (Doc × ℚ))) : SearchOutput :=
  match backend (buildQuery input) input.topk with
  | .ok hits => ⟨hits.map hitToItem⟩
  | .error _ => ⟨[]⟩

/-! ## The enrichment pipeline

`MMExtractor.forward` (`api/processor/pipelines/mm_extractor.py`, lines
14-59) and the model adapters it drives.  Each adapter is an external call:
it is a function returning `Except`.  The Aliyun ASR adapter
(`api/processor/plugins/asr/aliyun.py`, lines 28-55) wraps its whole body —
audio extraction, upload and transcription — in a `try`/`except` that
substitutes the empty transcript, so it is modelled as a TOTAL function on
top of the fallible raw call `asrRaw`.  The other adapters (`tembed`,
`iembed`, `vembed`, `vlm`) raise on failure. -/

/-- The pluggable model adapters seen by the pipeline, over an error type. -/
structure Plugins (ε : Type) where
  tembed : String → Except ε (List Emb)
  iembed : String → Except ε (List Emb)
  vembed : String → Except ε (List Emb)
  vlm : String → Except ε String
  asrRaw : String → Except ε String

/-- `AliyunASR.forward`: run audio extraction plus transcription; on ANY
exception, warn and return the empty transcript instead of raising. -/
def asr_forward {ε : Type} (P : Plugins ε) (video : String) : String :=
  match P.asrRaw video with
  | .ok t => t
  | .error _ => ""

/-- `TextItem` of `processor/core/data.py` (defaults: empty text, no
embeddings). -/
structure TextItem where
  text : String
  text_embeddings : List Emb
deriving DecidableEq

/-- `ImageItem` of `processor/core/data.py`. -/
structure ImageItem where
  image : String
  image_embedding : Option Emb
  text : String
  text_embeddings : List Emb
deriving DecidableEq

/-- `VideoItem` of `processor/core/data.py`. -/
structure VideoItem where
  video : String
  video_embedding : Option Emb
  text : String
  text_embeddings : List Emb
deriving DecidableEq

/-- `MMData` of `processor/core/data.py`: each modality sub-record is
optional (`None` by default). -/
structure MMData where
  text : Option TextItem
  image : Option ImageItem
  video : Option VideoItem
deriving DecidableEq

/-- The text block of `MMExtractor.forward` (lines 20-26): active iff the
text item is present; embeds the text.  The output item's `text` field keeps
its default empty value, as in the source. -/
def text_subgraph {ε : Type} (P : Plugins ε) : Option TextItem → Except ε TextItem
  | none => .ok ⟨"", []⟩
  | some ti =>
    match P.tembed ti.text with
    | .error e => .error e
    | .ok embed_result => .ok ⟨"", embed_result⟩

/-- The image block of `MMExtractor.forward` (lines 27-42): image embedding
(first vector of the adapter result, absent when the adapter returns none),
then the VLM caption, then the caption's text embeddings — the caption is
embedded unconditionally. -/
def image_subgraph {ε : Type} (P : Plugins ε) : Option ImageItem → Except ε ImageItem
  | none => .ok ⟨"", none, "", []⟩
  | some ii =>
    match P.iembed ii.image with
    | .error e => .error e
    | .ok embed_result =>
      match P.vlm ii.image with
      | .error e => .error e
      | .ok vlm_text =>
        match P.tembed vlm_text with
        | .error e => .error e
        | .ok text_embed_result =>
          .ok ⟨"", embed_result.head?, vlm_text, text_embed_result⟩

/-- The video block of `MMExtractor.forward` (lines 43-58): video embedding,
then the ASR transcript (empty on ASR failure), then the transcript's text
embeddings — the transcript is embedded unconditionally, even when empty. -/
def video_subgraph {ε : Type} (P : Plugins ε) : Option VideoItem → Except ε VideoItem
  | none => .ok ⟨"", none, "", []⟩
  | some vi =>
    match P.vembed vi.video with
    | .error e => .error e
    | .ok embed_result =>
      let asr_text := asr_forward P vi.video
      match P.tembed asr_text with
      | .error e => .error e
      | .ok text_embed_result =>
        .ok ⟨"", embed_result.head?, asr_text, text_embed_result⟩

/-- `MMExtractor.forward`: run the three modality blocks in source order on a
fresh output record; any adapter failure other than ASR propagates. -/
def MMExtractor_forward {ε : Type} (P : Plugins ε) (input : MMData) : Except ε MMData :=
  match text_subgraph P input.text with
  | .error e => .error e
  | .ok textOut =>
    match image_subgraph P input.image with
    | .error e => .error e
    | .ok imageOut =>
      match video_subgraph P input.video with
      | .error e => .error e
      | .ok videoOut => .ok ⟨some textOut, some imageOut, some videoOut⟩

/-! ## The Search Service Facade's insert paths

`SearchService.insert_data` (`api/handlers/search_service.py`, lines
383-463) and `SearchService.batch_insert_data` (lines 465-537), with
`ESSearchEngine.insert` and `ESSearchEngine.batch_insert` as the write
side.  Neither the synchronous `/data/insert` handler
(`api/handlers/search_handler.py`, lines 293-334) nor the service layer
checks that at least one modality is present — only the asynchronous
endpoints do. -/

/-- `InsertData` of `search_engine/base.py`: the document payload handed to
the engine. -/
structure InsertData where
  text : String
  image : String
  video : String
  embeddings : List EmbeddingInfo
  image_text : String
  video_text : String
deriving DecidableEq

/-- Write one embedding into its document field (`doc[field_name] = ...` of
es.py lines 211-215); a later write to the same field overwrites. -/
def setEmbeddingField (doc : Doc) (field_name : String) (e : Emb) : Doc :=
  if field_name = "text_embedding" then { doc with text_embedding := some e }
  else if field_name = "image_embedding" then { doc with image_embedding := some e }
  else if field_name = "video_embedding" then { doc with video_embedding := some e }
  else if field_name = "image_text_embedding" then { doc with image_text_embedding := some e }
  else if field_name = "video_text_embedding" then { doc with video_text_embedding := some e }
  else doc

/-- Build the document for one `InsertData` (es.py lines 200-215 and, for the
bulk path, lines 262-275): lexical fields verbatim, then each labeled vector
with non-empty label and non-empty vector routed through
`get_embedding_field`. -/
def buildDoc (data : InsertData) : Doc :=
  data.embeddings.foldl
    (fun doc e =>
      if e.label ≠ "" ∧ e.embedding ≠ [] then
        let field_name := get_embedding_field e.label
        if field_name ≠ "" then setEmbeddingField doc field_name e.embedding else doc
      else doc)
    ⟨data.text, data.image, data.video, data.image_text, data.video_text,
      none, none, none, none, none⟩

/-- `ESSearchEngine.insert`: append one freshly identified document to the
index. -/
def es_insert (idx : List Doc) (data : InsertData) : List Doc :=
  idx ++ [buildDoc data]

/-- `ESSearchEngine.batch_insert` (es.py lines 251-299): bulk-write the list
in chunks of the configured `batch_size` (default 100); each chunk appends
its documents in order. -/
def es_batch_insert (idx : List Doc) (data_list : List InsertData) : List Doc :=
  if h : data_list = [] then idx
  else es_batch_insert (idx ++ (data_list.take 100).map buildDoc) (data_list.drop 100)
termination_by data_list.length
decreasing_by
  have h1 : 0 < data_list.length := List.length_pos.mpr h
  simp only [List.length_drop]
  omega

/-- The per-item enrichment of `SearchService.insert_data` and
`SearchService.batch_insert_data` (search_service.py lines 389-442 and
474-525, which duplicate each other): build an `MMData` with a sub-item per
truthy field, run the extractor, then assemble the `InsertData` — the
caption/transcript text and their embeddings are taken only when the
corresponding modality embedding is a non-empty vector. -/
def enrich_request {ε : Type} (P : Plugins ε) (text image_url video_url : String) :
    Except ε InsertData :=
  let mm_data : MMData :=
    ⟨if text ≠ "" then some ⟨text, []⟩ else none,
     if image_url ≠ "" then some ⟨image_url, none, "", []⟩ else none,
     if video_url ≠ "" then some ⟨video_url, none, "", []⟩ else none⟩
  match MMExtractor_forward P mm_data with
  | .error e => .error e
  | .ok result =>
    let tEmbs : List EmbeddingInfo :=
      match result.text with
      | some ti =>
        match ti.text_embeddings with
        | [] => []
        | e :: _ => [⟨"text_embedding", e⟩]
      | none => []
    let iPart : List EmbeddingInfo × String :=
      match result.image with
      | some ii =>
        match ii.image_embedding with
        | some ie =>
          if ie ≠ [] then
            (⟨"image_embedding", ie⟩ ::
              (match ii.text_embeddings with
               | [] => []
               | e :: _ => [⟨"image_text_embedding", e⟩]), ii.text)
          else ([], "")
        | none => ([], "")
      | none => ([], "")
    let vPart : List EmbeddingInfo × String :=
      match result.video with
      | some vi =>
        match vi.video_embedding with
        | some ve =>
          if ve ≠ [] then
            (⟨"video_embedding", ve⟩ ::
              (match vi.text_embeddings with
               | [] => []
               | e :: _ => [⟨"video_text_embedding", e⟩]), vi.text)
          else ([], "")
        | none => ([], "")
      | none => ([], "")
    .ok ⟨text, image_url, video_url, tEmbs ++ iPart.1 ++ vPart.1, iPart.2, vPart.2⟩

/-- `SearchService.insert_data` driven by the synchronous `/data/insert`
handler: no modality validation anywhere on this path — enrich, then write
one document. -/
def insert_data {ε : Type} (P : Plugins ε) (text image_url video_url : String)
    (idx : List Doc) : Except ε (List Doc) :=
  match enrich_request P text image_url video_url with
  | .error e => .error e
  | .ok data => .ok (es_insert idx data)

/-- An item of a batch-insert request (`InsertDataRequest` of
`handlers/models.py`; `None` is modelled as the empty string, matching the
truthiness tests the service applies). -/
structure InsertDataRequest where
  text : String
  image_url : String
  video_url : String
deriving DecidableEq

/-- The enrichment loop of `SearchService.batch_insert_data` (lines 471-527):
enrich every item, in order, into `insert_data_list`; the first enrichment
failure aborts the whole loop. -/
def enrich_all {ε : Type} (P : Plugins ε) :
    List InsertDataRequest → Except ε (List InsertData)
  | [] => .ok []
  | r :: rest =>
    match enrich_request P r.text r.image_url r.video_url with
    | .error e => .error e
    | .ok d =>
      match enrich_all P rest with
      | .error e => .error e
      | .ok ds => .ok (d :: ds)

/-- `SearchService.batch_insert_data`: enrich ALL items first; only when
every enrichment succeeded, hand the whole list to the engine's bulk write;
return the new index state and the inserted count (or the error). -/
def batch_insert_data {ε : Type} (P : Plugins ε) (data_list : List InsertDataRequest)
    (idx : List Doc) : List Doc × Except ε Nat :=
  match enrich_all P data_list with
  | .error e => (idx, .error e)
  | .ok insert_data_list =>
    (es_batch_insert idx insert_data_list, .ok insert_data_list.length)

/-! ## The async task manager

`AsyncTaskManager` of `api/utils/async_task_manager.py`.  A task record is
the JSON value stored under `async_task:{id}`; `create_task` (lines 23-56)
and `update_task_status` (lines 73-111) both write it back with `SETEX` and
a TTL of 86400 seconds.  Timestamps (`datetime.now().isoformat()`) are
modelled as explicit `Nat` clock readings, one per call. -/

/-- The result dict of a batch-insert task (`processing_time`, a wall-clock
float irrelevant to the claims, is omitted). -/
structure BatchResult where
  inserted_count : Nat
  total_items : Nat
  success_rate : ℚ
deriving DecidableEq

/-- A task record as stored in Redis. -/
structure TaskRec where
  task_id : String
  task_type : String
  status : String
  progress : ℚ
  message : String
  created_at : Nat
  started_at : Option Nat
  completed_at : Option Nat
  result : Option BatchResult
deriving DecidableEq

/-- `status in ['completed', 'failed']`. -/
def isTerminalStatus (s : String) : Bool :=
  s == "completed" || s == "failed"

/-- `AsyncTaskManager.create_task`: a fresh pending record plus the 24h TTL
it is written with. -/
def create_task (task_id task_type : String) (now : Nat) : TaskRec × Nat :=
  (⟨task_id, task_type, "pending", 0, "Task created", now, none, none, none⟩, 86400)

/-- The optional arguments of one `update_task_status` call.  `status` and
`message` are truthiness-tested in the source (`if status:`/`if message:`),
so the empty string means "leave unchanged"; `progress` is tested with
`is not None`; `result` with truthiness. -/
structure Upd where
  status : String
  progress : Option ℚ
  message : String
  result : Option BatchResult
deriving DecidableEq

/-- `AsyncTaskManager.update_task_status` on an existing record: merge the
given fields, then stamp `started_at` when the new status is `processing`
and `started_at` is absent, ELSE stamp `completed_at` when the new status is
terminal and `completed_at` is absent (the source's `if`/`elif`, lines
93-96, encoded in the `completed_at` guard), and rewrite with the same 24h
TTL.  Each stored field is written independently, so the merge is given
field by field. -/
def update_task_status (t : TaskRec) (u : Upd) (now : Nat) : TaskRec × Nat :=
  ({ task_id := t.task_id
     task_type := t.task_type
     status := if u.status ≠ "" then u.status else t.status
     progress := match u.progress with | some p => p | none => t.progress
     message := if u.message ≠ "" then u.message else t.message
     created_at := t.created_at
     started_at :=
       if u.status == "processing" && t.started_at.isNone then some now
       else t.started_at
     completed_at :=
       if !(u.status == "processing" && t.started_at.isNone) &&
           (isTerminalStatus u.status && t.completed_at.isNone) then some now
       else t.completed_at
     result := match u.result with | some r => some r | none => t.result }, 86400)

/-- A sequence of `update_task_status` calls, each with its clock reading. -/
def runUpdates (t : TaskRec) (us : List (Upd × Nat)) : TaskRec :=
  us.foldl (fun acc un => (update_task_status acc un.1 un.2).1) t

/-- The clock reading of the first update satisfying `p`, if any. -/
def firstTime (p : Upd → Bool) (us : List (Upd × Nat)) : Option Nat :=
  (us.find? (fun un => p un.1)).map (fun un => un.2)

/-- Whether a transition to `processing` occurs strictly before the first
transition to a terminal status (vacuously true when no terminal transition
occurs). -/
def procFirst : List (Upd × Nat) → Bool
  | [] => true
  | un :: rest =>
    if isTerminalStatus un.1.status then false
    else if un.1.status == "processing" then true
    else procFirst rest

/-! ## The worker's batch-insert processing

`AsyncWorker.process_task` (async_worker.py lines 33-75) and
`AsyncWorker._process_batch_insert_data` (lines 131-190).  Each payload item
either inserts successfully or raises; the worker logs and continues, so a
batch run is abstracted by the list of per-item outcomes
(`true` = enrich+insert succeeded).  The run is rendered as the exact
sequence of `update_task_status` calls the worker issues. -/

/-- The progress update issued after the 0-based item `i` of `N` inserts
successfully (lines 159-166): `progress = 10.0 + (i + 1) / N * 80.0`,
`message = 'Processed {i+1}/{N} items'`.  No update is issued for a failed
item (the `except` branch, lines 168-170, only logs). -/
def itemUpd (i N : Nat) : Upd :=
  ⟨"processing", some ((10 : ℚ) + ((i : ℚ) + 1) / (N : ℚ) * 80),
   "Processed " ++ toString (i + 1) ++ "/" ++ toString N ++ " items", none⟩

/-- The per-item updates of a batch run, starting at 0-based index `i`. -/
def batchItemUpdates : List Bool → Nat → Nat → List Upd
  | [], _, _ => []
  | ok :: rest, i, N =>
    (if ok then [itemUpd i N] else []) ++ batchItemUpdates rest (i + 1) N

/-- The final `result` dict (lines 172-178): `inserted_count`, `total_items`
and `success_rate = inserted/total if total > 0 else 0`. -/
def batchResult (outcomes : List Bool) : BatchResult :=
  ⟨outcomes.count true, outcomes.length,
   if 0 < outcomes.length
   then (outcomes.count true : ℚ) / (outcomes.length : ℚ) else 0⟩

/-- The completing update of `_process_batch_insert_data` (lines 180-186). -/
def batchFinalUpd (outcomes : List Bool) : Upd :=
  ⟨"completed", some 100,
   "Batch insertion completed: " ++ toString (outcomes.count true) ++ "/" ++
     toString outcomes.length ++ " items inserted",
   some (batchResult outcomes)⟩

/-- The full update sequence a non-empty batch-insert task receives: the
worker's claim update (lines 43-48), the starting update (lines 141-146),
one progress update per successful item, the completing update with the
result, and `process_task`'s closing update (lines 58-63). -/
def processBatchTrace (outcomes : List Bool) : List Upd :=
  ([⟨"processing", some 0, "Processing task", none⟩,
    ⟨"processing", some 10,
      "Starting batch insertion of " ++ toString outcomes.length ++ " items", none⟩] ++
   batchItemUpdates outcomes 0 outcomes.length) ++
  [batchFinalUpd outcomes,
   ⟨"completed", some 100, "Task completed successfully", none⟩]

/-- The task record after a batch run whose updates all carry clock reading
`t0` (the claims about the run do not involve the clock). -/
def runBatchTask (outcomes : List Bool) (t0 : Nat) : TaskRec :=
  runUpdates (create_task "tid" "batch_insert_data" t0).1
    ((processBatchTrace outcomes).map (fun u => (u, t0)))

/-! ## Task cleanup

`AsyncTaskManager.cleanup_completed_tasks` (async_task_manager.py lines
155-181).  The store holds the records under their keys plus the
`async_task_list` index set; `smembers` is snapshotted before the loop, and
a removal deletes the record key AND removes the id from the set.  When a
terminal record has `completed_at = None`, `datetime.fromisoformat` raises;
the outer `except` then returns a count of 0 (deletions already issued
persist) — modelled by the `Bool` ok-flag. -/

/-- The Redis state the task manager sees: record keys and the index set. -/
structure TaskStore where
  records : List (String × TaskRec)
  index : List String
deriving DecidableEq

/-- `redis.get(async_task:{id})` + JSON parse (`get_task_status`). -/
def lookupTask (s : TaskStore) (id : String) : Option TaskRec :=
  (s.records.find? (fun p => p.1 == id)).map (fun p => p.2)

/-- `redis.delete(async_task:{id})` followed by
`redis.srem(async_task_list, id)`. -/
def deleteTask (s : TaskStore) (id : String) : TaskStore :=
  ⟨s.records.filter (fun p => p.1 != id), s.index.filter (fun i => i != id)⟩

/-- Whether the record under `id` would be removed by a cleanup pass at
clock `now` with threshold `maxAge` hours: present, terminal, and strictly
older than the threshold (`age_hours > max_age_hours`, line 169). -/
def taskQualifies (s : TaskStore) (now : Nat) (maxAge : ℚ) (id : String) : Bool :=
  match lookupTask s id with
  | none => false
  | some r =>
    isTerminalStatus r.status &&
      (match r.completed_at with
       | some c => decide (((now : ℚ) - (c : ℚ)) / 3600 > maxAge)
       | none => false)

/-- The cleanup loop over the snapshotted id set: skip missing and
non-terminal records; for a terminal record, parse `completed_at` (a `none`
raises: the loop stops with the ok-flag false) and delete when strictly
older than the threshold. -/
def cleanupLoop (now : Nat) (maxAge : ℚ) :
    List String → TaskStore → Nat → TaskStore × Nat × Bool
  | [], s, k => (s, k, true)
  | id :: rest, s, k =>
    match lookupTask s id with
    | none => cleanupLoop now maxAge rest s k
    | some r =>
      if isTerminalStatus r.status then
        match r.completed_at with
        | none => (s, k, false)
        | some c =>
          if ((now : ℚ) - (c : ℚ)) / 3600 > maxAge then
            cleanupLoop now maxAge rest (deleteTask s id) (k + 1)
          else cleanupLoop now maxAge rest s k
      else cleanupLoop now maxAge rest s k

/-- `AsyncTaskManager.cleanup_completed_tasks`: loop over the snapshot of
the index set; on an exception return 0 (the deletions already performed
stand). -/
def cleanup_completed_tasks (s : TaskStore) (maxAge : ℚ) (now : Nat) :
    TaskStore × Nat :=
  let res := cleanupLoop now maxAge s.index s 0
  (res.1, if res.2.2 then res.2.1 else 0)

/-- Store well-formedness: every stored terminal record has `completed_at`
set.  Every record the task manager writes satisfies this, because
`update_task_status` stamps `completed_at` on the first terminal
transition. -/
def storeWF (s : TaskStore) : Prop :=
  ∀ p ∈ s.records, isTerminalStatus p.2.status = true → p.2.completed_at ≠ none

/-! ## Theorems

The claim theorems (C1-C10), their helper lemmas, counterexamples and
witnesses, in the order of the development above. -/

/-- C1: the label-to-field mapping does NOT consult the rule table in the
order of spec §4.3.  The code tests `text`/`tembed` first, so the label
"image_text_embedding" (which contains "text") is routed to `text_embedding`
instead of the image-caption vector field `image_text_embedding`, and
"video_text_embedding" to `text_embedding` instead of the video-transcript
vector field; the code's `image_text`/`video_text` branches are dead.  The
remaining labels of spec scenario S6 agree with the spec.  This theorem
evaluates the code and the spec-ordered table at the failing inputs. -/
theorem c1_label_mapping_order_bug :
    get_embedding_field "image_text_embedding" = "text_embedding" ∧
    spec_label_mapping "image_text_embedding" = "image_text_embedding" ∧
    get_embedding_field "video_text_embedding" = "text_embedding" ∧
    spec_label_mapping "video_text_embedding" = "video_text_embedding" ∧
    get_embedding_field "text_embedding" = "text_embedding" ∧
    get_embedding_field "iembed" = "image_embedding" ∧
    get_embedding_field "vembed" = "video_embedding" ∧
    get_embedding_field "unknown" = "text_embedding" := by
  refine ⟨?_, ?_, ?_, ?_, ?_, ?_, ?_, ?_⟩ <;> decide

/-- C6 counterexample: with exactly one clause (non-empty text, no vectors)
the issued query is the bare `multi_match`, not a `should` disjunction with
minimum-should-match 1 as the claim states for "at least one clause". -/
theorem c6_single_clause_counterexample :
    buildQuery ⟨"a", [], 5⟩ ≠ ESQuery.boolShould (buildClauses ⟨"a", [], 5⟩) 1 := by
  have h : buildQuery ⟨"a", [], 5⟩ =
      ESQuery.multiMatch "a" ["text^2", "image_text", "video_text"] "best_fields" := rfl
  rw [h]
  intro hc
  exact ESQuery.noConfusion hc

/-- C6 (amended): with no query text and no labeled vectors the issued query
is match-all; with two or more clauses the clauses are combined as a `should`
disjunction with minimum-should-match 1 (a single clause is issued bare, see
the counterexample); and when the backing store honors the requested size the
number of returned items never exceeds `top_k`. -/
theorem c6_search_query_shape :
    (∀ input : SearchInput, input.text = "" → input.embeddings = [] →
      buildQuery input = ESQuery.matchAll) ∧
    (∀ input : SearchInput, 2 ≤ (buildClauses input).length →
      buildQuery input = ESQuery.boolShould (buildClauses input) 1) ∧
    (∀ (input : SearchInput) (backend : ESQuery → Nat → Except String (List (Doc × ℚ))),
      (∀ q n hits, backend q n = .ok hits → hits.length ≤ n) →
      (es_search input backend).items.length ≤ input.topk) := by
  refine ⟨?_, ?_, ?_⟩
  · rintro ⟨t, es, k⟩ ht hes
    simp only at ht hes
    subst ht hes
    rfl
  · intro input hlen
    unfold buildQuery
    rcases hcs : buildClauses input with _ | ⟨a, _ | ⟨b, tl⟩⟩
    · rw [hcs] at hlen; simp at hlen
    · rw [hcs] at hlen; simp at hlen
    · rfl
  · intro input backend hb
    unfold es_search
    rcases hres : backend (buildQuery input) input.topk with e | hits
    · simp
    · simpa using hb _ _ _ hres

/-- C6 witness: the amended claim at concrete inputs — empty input gives
match-all, text plus one vector gives the two-clause `should`, and a backend
returning no hits stays within `top_k` = 2. -/
theorem c6_search_query_shape_witness :
    buildQuery ⟨"", [], 5⟩ = ESQuery.matchAll ∧
    buildQuery ⟨"b", [⟨"text_embedding", [1]⟩], 4⟩ =
      ESQuery.boolShould (buildClauses ⟨"b", [⟨"text_embedding", [1]⟩], 4⟩) 1 ∧
    (es_search ⟨"b", [], 2⟩ (fun _ _ => .ok [])).items.length ≤ 2 := by
  refine ⟨c6_search_query_shape.1 _ rfl rfl, c6_search_query_shape.2.1 _ ?_, ?_⟩
  · exact Nat.le_refl 2
  · exact c6_search_query_shape.2.2 ⟨"b", [], 2⟩ (fun _ _ => .ok [])
      (fun q n hits h => by injection h with h'; subst h'; exact Nat.zero_le n)

/-- C8 counterexample: a backend exception during search is swallowed — the
engine returns a successful empty result instead of surfacing a Service
error. -/
theorem c8_error_swallowed_counterexample :
    es_search ⟨"a", [], 5⟩ (fun _ _ => .error "connection refused") =
      SearchOutput.mk [] := rfl

/-- C8 (amended): when the index backend raises during a search, the engine
catches the exception and reports a successful result with zero items to the
caller; the failure does not surface as a Service error. -/
theorem c8_search_error_returns_empty :
    ∀ (input : SearchInput) (backend : ESQuery → Nat → Except String (List (Doc × ℚ)))
      (e : String),
      backend (buildQuery input) input.topk = .error e →
      es_search input backend = SearchOutput.mk [] := by
  intro input backend e h
  unfold es_search
  rw [h]

/-- C8 witness: the amended claim at a concrete failing backend. -/
theorem c8_search_error_returns_empty_witness :
    es_search ⟨"q", [], 3⟩ (fun _ _ => .error "index down") = SearchOutput.mk [] :=
  c8_search_error_returns_empty ⟨"q", [], 3⟩ (fun _ _ => .error "index down")
    "index down" rfl

/-- C2: the transcript-embedding step is NOT skipped when the transcript is
empty.  With an ASR adapter that fails (so the transcript is substituted with
the empty string) and a text embedder that returns a vector for every input,
the pipeline still calls embed-text on the empty transcript and the output
record carries that vector as a video-transcript embedding.  The claim (and
spec §4.2) mandates skipping the step and carrying no such embedding. -/
theorem c2_empty_transcript_still_embedded :
    MMExtractor_forward
      (⟨fun _ => .ok [[7]], fun _ => .ok [[1]], fun _ => .ok [[2]],
        fun _ => .ok "cap", fun _ => .error "asr failed"⟩ : Plugins String)
      ⟨none, none, some ⟨"http://v", none, "", []⟩⟩ =
      .ok ⟨some ⟨"", []⟩, some ⟨"", none, "", []⟩,
        some ⟨"", some [2], "", [[7]]⟩⟩ ∧
    (⟨"", some [2], "", [[7]]⟩ : VideoItem).text = "" ∧
    (⟨"", some [2], "", [[7]]⟩ : VideoItem).text_embeddings ≠ [] := by
  refine ⟨rfl, rfl, ?_⟩
  exact List.cons_ne_nil _ _

/-- C7: ASR failure is suppressed and is the sole suppressed failure.  An ASR
exception yields the empty transcript; the whole pipeline behaves exactly as
if the ASR adapter had succeeded with that substituted transcript; and a
failure of any OTHER adapter — text embed, image embed, VLM caption, caption
embed, video embed, transcript embed — propagates out of the pipeline with
its error preserved. -/
theorem c7_asr_failure_sole_suppressed :
    (∀ {ε : Type} (P : Plugins ε) (url : String) (e : ε),
      P.asrRaw url = .error e → asr_forward P url = "") ∧
    (∀ {ε : Type} (P : Plugins ε) (input : MMData),
      MMExtractor_forward P input =
        MMExtractor_forward { P with asrRaw := fun u => .ok (asr_forward P u) } input) ∧
    (∀ {ε : Type} (P : Plugins ε) (ti : TextItem) (img : Option ImageItem)
      (vid : Option VideoItem) (e : ε),
      P.tembed ti.text = .error e →
      MMExtractor_forward P ⟨some ti, img, vid⟩ = .error e) ∧
    (∀ {ε : Type} (P : Plugins ε) (ii : ImageItem) (vid : Option VideoItem) (e : ε),
      P.iembed ii.image = .error e →
      MMExtractor_forward P ⟨none, some ii, vid⟩ = .error e) ∧
    (∀ {ε : Type} (P : Plugins ε) (ii : ImageItem) (vid : Option VideoItem)
      (l : List Emb) (e : ε),
      P.iembed ii.image = .ok l → P.vlm ii.image = .error e →
      MMExtractor_forward P ⟨none, some ii, vid⟩ = .error e) ∧
    (∀ {ε : Type} (P : Plugins ε) (ii : ImageItem) (vid : Option VideoItem)
      (l : List Emb) (cap : String) (e : ε),
      P.iembed ii.image = .ok l → P.vlm ii.image = .ok cap →
      P.tembed cap = .error e →
      MMExtractor_forward P ⟨none, some ii, vid⟩ = .error e) ∧
    (∀ {ε : Type} (P : Plugins ε) (vi : VideoItem) (e : ε),
      P.vembed vi.video = .error e →
      MMExtractor_forward P ⟨none, none, some vi⟩ = .error e) ∧
    (∀ {ε : Type} (P : Plugins ε) (vi : VideoItem) (l : List Emb) (e : ε),
      P.vembed vi.video = .ok l → P.tembed (asr_forward P vi.video) = .error e →
      MMExtractor_forward P ⟨none, none, some vi⟩ = .error e) := by
  refine ⟨?_, ?_, ?_, ?_, ?_, ?_, ?_, ?_⟩
  · intro ε P url e h
    simp [asr_forward, h]
  · intro ε P input
    obtain ⟨t, i, v⟩ := input
    cases v with
    | none => rfl
    | some vi =>
      simp only [MMExtractor_forward, text_subgraph, image_subgraph, video_subgraph,
        asr_forward]
  · intro ε P ti img vid e h
    simp [MMExtractor_forward, text_subgraph, h]
  · intro ε P ii vid e h
    simp [MMExtractor_forward, text_subgraph, image_subgraph, h]
  · intro ε P ii vid l e h1 h2
    simp [MMExtractor_forward, text_subgraph, image_subgraph, h1, h2]
  · intro ε P ii vid l cap e h1 h2 h3
    simp [MMExtractor_forward, text_subgraph, image_subgraph, h1, h2, h3]
  · intro ε P vi e h
    simp [MMExtractor_forward, text_subgraph, image_subgraph, video_subgraph, h]
  · intro ε P vi l e h1 h2
    simp [MMExtractor_forward, text_subgraph, image_subgraph, video_subgraph, h1, h2]

/-- C7 witness: the parts of the claim at concrete plugins — a failing ASR
substitutes the empty transcript and a failing text embedder propagates. -/
theorem c7_asr_failure_sole_suppressed_witness :
    asr_forward
      (⟨fun _ => .ok [[1]], fun _ => .ok [[1]], fun _ => .ok [[1]],
        fun _ => .ok "c", fun _ => .error "net"⟩ : Plugins String) "v" = "" ∧
    MMExtractor_forward
      (⟨fun _ => .error "boom", fun _ => .ok [[1]], fun _ => .ok [[1]],
        fun _ => .ok "c", fun _ => .ok "t"⟩ : Plugins String)
      ⟨some ⟨"hello", []⟩, none, none⟩ = .error "boom" := by
  constructor
  · exact c7_asr_failure_sole_suppressed.1 _ "v" "net" rfl
  · exact c7_asr_failure_sole_suppressed.2.2.1 _ ⟨"hello", []⟩ none none "boom" rfl

/-- C5: the synchronous single-insert does NOT reject an all-empty request.
With no text, no image URL and no video URL, `insert_data` raises no
Validation error: it runs the extractor on an empty `MMData` (touching no
adapter), and writes one all-empty document to the index.  This holds for
every adapter assembly and index state. -/
theorem c5_sync_insert_accepts_all_empty :
    ∀ {ε : Type} (P : Plugins ε) (idx : List Doc),
      insert_data P "" "" "" idx =
        .ok (idx ++ [⟨"", "", "", "", "", none, none, none, none, none⟩]) := by
  intro ε P idx
  rfl

/-- Helper for C10: if some item's enrichment fails, the whole enrichment
loop fails. -/
theorem enrich_all_error_of_mem {ε : Type} (P : Plugins ε)
    (data_list : List InsertDataRequest) (r : InsertDataRequest) (e : ε)
    (hr : r ∈ data_list)
    (hf : enrich_request P r.text r.image_url r.video_url = .error e) :
    ∃ e', enrich_all P data_list = .error e' := by
  induction data_list with
  | nil => cases hr
  | cons x xs ih =>
    rcases List.mem_cons.mp hr with rfl | hmem
    · exact ⟨e, by rw [enrich_all, hf]⟩
    · cases hx : enrich_request P x.text x.image_url x.video_url with
      | error e2 => exact ⟨e2, by rw [enrich_all, hx]⟩
      | ok d =>
        obtain ⟨e', he'⟩ := ih hmem
        exact ⟨e', by rw [enrich_all, hx, he']⟩

/-- C10: the synchronous batch-insert enriches every item before writing
anything; if the enrichment of any item raises, the whole operation fails
and the index is unchanged — no document from the batch is inserted. -/
theorem c10_batch_insert_index_unchanged_on_enrich_failure :
    ∀ {ε : Type} (P : Plugins ε) (data_list : List InsertDataRequest)
      (idx : List Doc) (r : InsertDataRequest) (e : ε),
      r ∈ data_list →
      enrich_request P r.text r.image_url r.video_url = .error e →
      (batch_insert_data P data_list idx).1 = idx ∧
      ∃ e', (batch_insert_data P data_list idx).2 = .error e' := by
  intro ε P data_list idx r e hr hf
  obtain ⟨e', he'⟩ := enrich_all_error_of_mem P data_list r e hr hf
  rw [batch_insert_data, he']
  exact ⟨rfl, e', rfl⟩

/-- C10 witness: with a failing text embedder, a concrete one-item batch
fails as a whole and leaves a concrete one-document index unchanged. -/
theorem c10_batch_insert_index_unchanged_witness :
    (batch_insert_data
      (⟨fun _ => .error "down", fun _ => .ok [[1]], fun _ => .ok [[1]],
        fun _ => .ok "c", fun _ => .ok "t"⟩ : Plugins String)
      [⟨"a", "", ""⟩]
      [⟨"x", "", "", "", "", none, none, none, none, none⟩]).1 =
      [⟨"x", "", "", "", "", none, none, none, none, none⟩] ∧
    ∃ e', (batch_insert_data
      (⟨fun _ => .error "down", fun _ => .ok [[1]], fun _ => .ok [[1]],
        fun _ => .ok "c", fun _ => .ok "t"⟩ : Plugins String)
      [⟨"a", "", ""⟩]
      [⟨"x", "", "", "", "", none, none, none, none, none⟩]).2 = .error e' :=
  c10_batch_insert_index_unchanged_on_enrich_failure _ _ _ ⟨"a", "", ""⟩ "down"
    (List.Mem.head _) rfl

theorem update_started_at (t : TaskRec) (u : Upd) (n : Nat) :
    (update_task_status t u n).1.started_at =
      if u.status == "processing" && t.started_at.isNone then some n
      else t.started_at := rfl

theorem update_completed_at (t : TaskRec) (u : Upd) (n : Nat) :
    (update_task_status t u n).1.completed_at =
      if !(u.status == "processing" && t.started_at.isNone) &&
          (isTerminalStatus u.status && t.completed_at.isNone) then some n
      else t.completed_at := rfl

theorem update_status (t : TaskRec) (u : Upd) (n : Nat) :
    (update_task_status t u n).1.status =
      if u.status ≠ "" then u.status else t.status := rfl

theorem update_created_at (t : TaskRec) (u : Upd) (n : Nat) :
    (update_task_status t u n).1.created_at = t.created_at := rfl

/-- A terminal status is not the string `processing`. -/
theorem terminal_not_processing {s : String} (h : isTerminalStatus s = true) :
    (s == "processing") = false := by
  have h' : (s == "completed") = true ∨ (s == "failed") = true := by
    simpa [isTerminalStatus] using h
  rcases h' with h1 | h1 <;> (rw [eq_of_beq h1]; decide)

/-- A terminal status is a non-empty string. -/
theorem terminal_ne_empty {s : String} (h : isTerminalStatus s = true) :
    s ≠ "" := by
  have h' : (s == "completed") = true ∨ (s == "failed") = true := by
    simpa [isTerminalStatus] using h
  rcases h' with h1 | h1 <;> (rw [eq_of_beq h1]; decide)

/-- Unfolding `firstTime` one step. -/
theorem firstTime_cons (p : Upd → Bool) (un : Upd × Nat) (rest : List (Upd × Nat)) :
    firstTime p (un :: rest) = if p un.1 then some un.2 else firstTime p rest := by
  simp only [firstTime, List.find?]
  cases hp : p un.1 <;> simp [hp]

theorem runUpdates_created_at (us : List (Upd × Nat)) :
    ∀ t : TaskRec, (runUpdates t us).created_at = t.created_at := by
  induction us with
  | nil => intro t; rfl
  | cons un rest ih =>
    intro t
    rw [runUpdates, List.foldl_cons]
    exact (ih _).trans (update_created_at t un.1 un.2)

/-- Once set, `started_at` is never changed by further updates. -/
theorem runUpdates_started_at_stable (us : List (Upd × Nat)) :
    ∀ (t : TaskRec) (s : Nat), t.started_at = some s →
      (runUpdates t us).started_at = some s := by
  induction us with
  | nil => intro t s h; exact h
  | cons un rest ih =>
    intro t s h
    rw [runUpdates, List.foldl_cons]
    refine ih _ s ?_
    rw [update_started_at, h]
    simp

/-- Once set, `completed_at` is never changed by further updates. -/
theorem runUpdates_completed_at_stable (us : List (Upd × Nat)) :
    ∀ (t : TaskRec) (c : Nat), t.completed_at = some c →
      (runUpdates t us).completed_at = some c := by
  induction us with
  | nil => intro t c h; exact h
  | cons un rest ih =>
    intro t c h
    rw [runUpdates, List.foldl_cons]
    refine ih _ c ?_
    rw [update_completed_at, h]
    simp

/-- `started_at` is stamped exactly at the first update whose status is
`processing`. -/
theorem runUpdates_started_at_first (us : List (Upd × Nat)) :
    ∀ t : TaskRec, t.started_at = none →
      (runUpdates t us).started_at =
        firstTime (fun u => u.status == "processing") us := by
  induction us with
  | nil => intro t h; exact h
  | cons un rest ih =>
    intro t h
    rw [runUpdates, List.foldl_cons]
    rw [show (rest.foldl (fun acc un => (update_task_status acc un.1 un.2).1)
        (update_task_status t un.1 un.2).1) = runUpdates _ rest from rfl]
    rw [firstTime_cons]
    by_cases hp : (un.1.status == "processing") = true
    · have hst : (update_task_status t un.1 un.2).1.started_at = some un.2 := by
        rw [update_started_at, h, hp]
        simp
      rw [runUpdates_started_at_stable rest _ un.2 hst]
      simp [hp]
    · have hb : (un.1.status == "processing") = false := by
        simpa using hp
      have hst : (update_task_status t un.1 un.2).1.started_at = none := by
        rw [update_started_at, hb, h]
        simp
      rw [ih _ hst]
      simp [hb]

/-- `completed_at` is stamped exactly at the first update whose status is
terminal. -/
theorem runUpdates_completed_at_first (us : List (Upd × Nat)) :
    ∀ t : TaskRec, t.completed_at = none →
      (runUpdates t us).completed_at =
        firstTime (fun u => isTerminalStatus u.status) us := by
  induction us with
  | nil => intro t h; exact h
  | cons un rest ih =>
    intro t h
    rw [runUpdates, List.foldl_cons]
    rw [show (rest.foldl (fun acc un => (update_task_status acc un.1 un.2).1)
        (update_task_status t un.1 un.2).1) = runUpdates _ rest from rfl]
    rw [firstTime_cons]
    by_cases ht : isTerminalStatus un.1.status = true
    · have hcm : (update_task_status t un.1 un.2).1.completed_at = some un.2 := by
        rw [update_completed_at, h, ht, terminal_not_processing ht]
        simp
      rw [runUpdates_completed_at_stable rest _ un.2 hcm]
      simp [ht]
    · have hb : isTerminalStatus un.1.status = false := by
        simpa using ht
      have hcm : (update_task_status t un.1 un.2).1.completed_at = none := by
        rw [update_completed_at, hb, h]
        simp
      rw [ih _ hcm]
      simp [hb]

/-- After `started_at` has been stamped with `s` and while `completed_at` is
still absent, any further updates whose clock readings stay at or above `s`
keep `started_at` at `s`, and if the final status is terminal then
`completed_at` was stamped no earlier than `s`. -/
theorem runUpdates_after_started (us : List (Upd × Nat)) :
    ∀ (t : TaskRec) (s lb : Nat),
      t.started_at = some s → t.completed_at = none →
      isTerminalStatus t.status = false →
      s ≤ lb → List.Chain (· ≤ ·) lb (us.map Prod.snd) →
      (runUpdates t us).started_at = some s ∧
      (isTerminalStatus (runUpdates t us).status = true →
        ∃ c, (runUpdates t us).completed_at = some c ∧ s ≤ c) := by
  induction us with
  | nil =>
    intro t s lb h1 h2 h3 _ _
    refine ⟨h1, fun hterm => ?_⟩
    rw [show runUpdates t [] = t from rfl] at hterm
    rw [h3] at hterm
    exact absurd hterm (by decide)
  | cons un rest ih =>
    intro t s lb h1 h2 h3 hslb hchain
    rw [List.map_cons, List.chain_cons] at hchain
    obtain ⟨hlbn, hchain'⟩ := hchain
    have hrw : runUpdates t (un :: rest) =
        runUpdates (update_task_status t un.1 un.2).1 rest := rfl
    rw [hrw]
    by_cases htu : isTerminalStatus un.1.status = true
    · have hst' : (update_task_status t un.1 un.2).1.started_at = some s := by
        rw [update_started_at, terminal_not_processing htu, h1]
        simp
      have hcm' : (update_task_status t un.1 un.2).1.completed_at = some un.2 := by
        rw [update_completed_at, terminal_not_processing htu, htu, h2]
        simp
      refine ⟨runUpdates_started_at_stable rest _ s hst', fun _ => ?_⟩
      exact ⟨un.2, runUpdates_completed_at_stable rest _ un.2 hcm',
        le_trans hslb hlbn⟩
    · have hbu : isTerminalStatus un.1.status = false := by simpa using htu
      have hst' : (update_task_status t un.1 un.2).1.started_at = some s := by
        rw [update_started_at, h1]
        simp
      have hcm' : (update_task_status t un.1 un.2).1.completed_at = none := by
        rw [update_completed_at, hbu, h2]
        simp
      have hstat' : isTerminalStatus (update_task_status t un.1 un.2).1.status = false := by
        rw [update_status]
        by_cases he : un.1.status = ""
        · simp [he, h3]
        · simp [he, hbu]
      exact ih _ s un.2 hst' hcm' hstat' (le_trans hslb hlbn) hchain'

/-- From a fresh (pending, unstamped) record, if a `processing` update comes
before the first terminal update and the clock readings are non-decreasing,
then a terminal final status implies both timestamps are set, in order. -/
theorem runUpdates_terminal_stamps (us : List (Upd × Nat)) :
    ∀ (t : TaskRec) (lb : Nat),
      t.started_at = none → t.completed_at = none →
      isTerminalStatus t.status = false →
      procFirst us = true →
      List.Chain (· ≤ ·) lb (us.map Prod.snd) →
      isTerminalStatus (runUpdates t us).status = true →
      ∃ s c, (runUpdates t us).started_at = some s ∧
        (runUpdates t us).completed_at = some c ∧ lb ≤ s ∧ s ≤ c := by
  induction us with
  | nil =>
    intro t lb h1 h2 h3 _ _ hterm
    rw [show runUpdates t [] = t from rfl] at hterm
    rw [h3] at hterm
    exact absurd hterm (by decide)
  | cons un rest ih =>
    intro t lb h1 h2 h3 hpf hchain hterm
    rw [List.map_cons, List.chain_cons] at hchain
    obtain ⟨hlbn, hchain'⟩ := hchain
    have hrw : runUpdates t (un :: rest) =
        runUpdates (update_task_status t un.1 un.2).1 rest := rfl
    rw [hrw] at hterm ⊢
    by_cases htu : isTerminalStatus un.1.status = true
    · rw [procFirst] at hpf
      simp [htu] at hpf
    · have hbu : isTerminalStatus un.1.status = false := by simpa using htu
      by_cases hpu : (un.1.status == "processing") = true
      · have hst' : (update_task_status t un.1 un.2).1.started_at = some un.2 := by
          rw [update_started_at, hpu, h1]
          simp
        have hcm' : (update_task_status t un.1 un.2).1.completed_at = none := by
          rw [update_completed_at, hbu, h2]
          simp
        have hstat' : isTerminalStatus (update_task_status t un.1 un.2).1.status = false := by
          rw [update_status, show un.1.status = "processing" from eq_of_beq hpu]
          simp [isTerminalStatus]
        obtain ⟨hfs, hfc⟩ :=
          runUpdates_after_started rest _ un.2 un.2 hst' hcm' hstat' le_rfl hchain'
        obtain ⟨c, hc, hsc⟩ := hfc hterm
        exact ⟨un.2, c, hfs, hc, hlbn, hsc⟩
      · have hpb : (un.1.status == "processing") = false := by simpa using hpu
        rw [procFirst] at hpf
        simp only [hbu, hpb] at hpf
        rw [if_neg (by simp), if_neg (by simp)] at hpf
        have hst' : (update_task_status t un.1 un.2).1.started_at = none := by
          rw [update_started_at, hpb, h1]
          simp
        have hcm' : (update_task_status t un.1 un.2).1.completed_at = none := by
          rw [update_completed_at, hbu, h2]
          simp
        have hstat' : isTerminalStatus (update_task_status t un.1 un.2).1.status = false := by
          rw [update_status]
          by_cases he : un.1.status = ""
          · simp [he, h3]
          · simp [he, hbu]
        obtain ⟨s, c, hs, hc, hns, hsc⟩ := ih _ un.2 hst' hcm' hstat' hpf hchain' hterm
        exact ⟨s, c, hs, hc, le_trans hlbn hns, hsc⟩

/-- C4 counterexample: a task updated straight from `pending` to `failed`
(one terminal update at time 5 after creation at time 0, clock
non-decreasing) ends terminal with `completed_at` stamped but `started_at`
still absent, so the claimed chain `completed_at ≥ started_at ≥ created_at`
is not establishable for every update sequence. -/
theorem c4_direct_failure_counterexample :
    isTerminalStatus (runUpdates (create_task "t1" "insert_data" 0).1
      [(⟨"failed", none, "", none⟩, 5)]).status = true ∧
    (runUpdates (create_task "t1" "insert_data" 0).1
      [(⟨"failed", none, "", none⟩, 5)]).started_at = none ∧
    (runUpdates (create_task "t1" "insert_data" 0).1
      [(⟨"failed", none, "", none⟩, 5)]).completed_at = some 5 := by
  refine ⟨rfl, rfl, rfl⟩

/-- C4 (amended): for every task reachable by create followed by any
sequence of status updates with non-decreasing clock readings: the record is
(re)written with the 24-hour TTL on creation and on every update;
`created_at` never changes; `started_at` is stamped exactly at the first
update to `processing`; `completed_at` is stamped exactly at the first
update to `completed`/`failed`; and — provided a `processing` update occurs
before the first terminal update, as the worker always does — a terminal
final status implies both timestamps are set with
`completed_at ≥ started_at ≥ created_at`. -/
theorem c4_task_lifecycle_timestamps :
    (∀ (tid ttype : String) (n : Nat), (create_task tid ttype n).2 = 86400) ∧
    (∀ (t : TaskRec) (u : Upd) (n : Nat), (update_task_status t u n).2 = 86400) ∧
    (∀ (tid ttype : String) (t0 : Nat) (us : List (Upd × Nat)),
      (runUpdates (create_task tid ttype t0).1 us).created_at = t0 ∧
      (runUpdates (create_task tid ttype t0).1 us).started_at =
        firstTime (fun u => u.status == "processing") us ∧
      (runUpdates (create_task tid ttype t0).1 us).completed_at =
        firstTime (fun u => isTerminalStatus u.status) us) ∧
    (∀ (tid ttype : String) (t0 : Nat) (us : List (Upd × Nat)),
      List.Chain (· ≤ ·) t0 (us.map Prod.snd) →
      procFirst us = true →
      isTerminalStatus (runUpdates (create_task tid ttype t0).1 us).status = true →
      ∃ s c, (runUpdates (create_task tid ttype t0).1 us).started_at = some s ∧
        (runUpdates (create_task tid ttype t0).1 us).completed_at = some c ∧
        t0 ≤ s ∧ s ≤ c) := by
  refine ⟨fun _ _ _ => rfl, fun _ _ _ => rfl, ?_, ?_⟩
  · intro tid ttype t0 us
    refine ⟨?_, ?_, ?_⟩
    · rw [runUpdates_created_at]
      rfl
    · exact runUpdates_started_at_first us _ rfl
    · exact runUpdates_completed_at_first us _ rfl
  · intro tid ttype t0 us hchain hpf hterm
    exact runUpdates_terminal_stamps us _ t0 rfl rfl rfl hpf hchain hterm

/-- C4 witness: the normal worker sequence (processing at time 2, completed
at time 3, created at time 1) yields both timestamps in order. -/
theorem c4_task_lifecycle_timestamps_witness :
    ∃ s c, (runUpdates (create_task "w" "insert_data" 1).1
        [(⟨"processing", some 0, "Processing task", none⟩, 2),
         (⟨"completed", some 100, "Task completed successfully", none⟩, 3)]).started_at =
          some s ∧
      (runUpdates (create_task "w" "insert_data" 1).1
        [(⟨"processing", some 0, "Processing task", none⟩, 2),
         (⟨"completed", some 100, "Task completed successfully", none⟩, 3)]).completed_at =
          some c ∧
      1 ≤ s ∧ s ≤ c :=
  c4_task_lifecycle_timestamps.2.2.2 "w" "insert_data" 1 _
    (List.Chain.cons (by omega) (List.Chain.cons (by omega) List.Chain.nil))
    (by decide) (by decide)

theorem runUpdates_append (t : TaskRec) (a b : List (Upd × Nat)) :
    runUpdates t (a ++ b) = runUpdates (runUpdates t a) b := by
  simp [runUpdates, List.foldl_append]

/-- Helper for C3: a successful item's progress update is in the trace. -/
theorem itemUpd_mem_batchItemUpdates :
    ∀ (outcomes : List Bool) (i0 i N : Nat) (hi : i < outcomes.length),
      outcomes[i] = true → itemUpd (i0 + i) N ∈ batchItemUpdates outcomes i0 N := by
  intro outcomes
  induction outcomes with
  | nil => intro i0 i N hi; exact absurd hi (Nat.not_lt_zero i)
  | cons b rest ih =>
    intro i0 i N hi hv
    cases i with
    | zero =>
      have hb : b = true := hv
      simp [batchItemUpdates, hb]
    | succ j =>
      have hj : j < rest.length := by
        simpa [Nat.succ_lt_succ_iff] using hi
      have hv' : rest[j] = true := by simpa using hv
      have := ih (i0 + 1) j N hj hv'
      rw [show i0 + (j + 1) = (i0 + 1) + j by omega]
      exact List.mem_append_right _ this

/-- Helper for C3: the last two updates of a completed run determine the
final status, progress and result, whatever came before. -/
theorem runUpdates_last_two_completed (T : TaskRec) (p1 : Option ℚ)
    (m1 m2 : String) (r : BatchResult) (n1 n2 : Nat) :
    (runUpdates T [(⟨"completed", p1, m1, some r⟩, n1),
        (⟨"completed", some 100, m2, none⟩, n2)]).status = "completed" ∧
    (runUpdates T [(⟨"completed", p1, m1, some r⟩, n1),
        (⟨"completed", some 100, m2, none⟩, n2)]).progress = 100 ∧
    (runUpdates T [(⟨"completed", p1, m1, some r⟩, n1),
        (⟨"completed", some 100, m2, none⟩, n2)]).result = some r :=
  ⟨rfl, rfl, rfl⟩

/-- C3 counterexample: in the two-item batch whose first item fails (and
second succeeds), no update carries `progress = 10 + 80·(1/2) = 50` nor the
message `Processed 1/2 items` — after a FAILED item `i` the worker issues no
progress update, so "after item i of N the progress equals 10 + 80·(i/N)"
fails as a statement about every item. -/
theorem c3_failed_item_no_progress_update :
    some (50 : ℚ) ∉ (processBatchTrace [false, true]).map (fun u => u.progress) ∧
    "Processed 1/2 items" ∉ (processBatchTrace [false, true]).map (fun u => u.message) := by
  refine ⟨?_, ?_⟩
  · simp [processBatchTrace, batchItemUpdates, itemUpd, batchFinalUpd, batchResult]
    norm_num
  · simp [processBatchTrace, batchItemUpdates, itemUpd, batchFinalUpd, batchResult]
    refine ⟨by decide, by decide, by decide⟩

/-- C3 (amended): for every non-empty batch, the worker processes the items
in order, logging and continuing on per-item failure; for every item `i` of
`N` that SUCCEEDS, an update with progress `10 + 80·((i+1)/N)` and message
`Processed i+1/N items` is issued (failed items produce no progress
update); and the final record is `completed` at progress 100 with result
`inserted = number of successes`, `total = N`,
`success_rate = inserted/N` — even when some items failed. -/
theorem c3_batch_insert_partial_failure :
    ∀ (outcomes : List Bool) (t0 : Nat), outcomes ≠ [] →
      (∀ (i : Nat) (hi : i < outcomes.length), outcomes[i] = true →
        itemUpd i outcomes.length ∈ processBatchTrace outcomes) ∧
      (runBatchTask outcomes t0).status = "completed" ∧
      (runBatchTask outcomes t0).progress = 100 ∧
      (runBatchTask outcomes t0).result =
        some ⟨outcomes.count true, outcomes.length,
          (outcomes.count true : ℚ) / (outcomes.length : ℚ)⟩ := by
  intro outcomes t0 hne
  have hres : batchResult outcomes =
      ⟨outcomes.count true, outcomes.length,
        (outcomes.count true : ℚ) / (outcomes.length : ℚ)⟩ := by
    rw [batchResult, if_pos (List.length_pos.mpr hne)]
  constructor
  · intro i hi hv
    have h0 := itemUpd_mem_batchItemUpdates outcomes 0 i outcomes.length hi hv
    rw [Nat.zero_add] at h0
    rw [processBatchTrace]
    exact List.mem_append_left _ (List.mem_append_right _ h0)
  · have hsplit : runBatchTask outcomes t0 =
        runUpdates
          (runUpdates (create_task "tid" "batch_insert_data" t0).1
            ((([⟨"processing", some 0, "Processing task", none⟩,
                ⟨"processing", some 10,
                  "Starting batch insertion of " ++ toString outcomes.length ++
                    " items", none⟩] : List Upd) ++
               batchItemUpdates outcomes 0 outcomes.length).map (fun u => (u, t0))))
          [(batchFinalUpd outcomes, t0),
           (⟨"completed", some 100, "Task completed successfully", none⟩, t0)] := by
      rw [runBatchTask, processBatchTrace, List.map_append, runUpdates_append]
      rfl
    rw [hsplit, batchFinalUpd, hres]
    exact runUpdates_last_two_completed _ _ _ _ _ _ _

/-- C3 witness: the amended claim at the concrete outcome list
`[false, true]` — item 2's update is present, and the final record reports
1 of 2 inserted with success rate 1/2. -/
theorem c3_batch_insert_partial_failure_witness :
    itemUpd 1 2 ∈ processBatchTrace [false, true] ∧
    (runBatchTask [false, true] 0).status = "completed" ∧
    (runBatchTask [false, true] 0).progress = 100 ∧
    (runBatchTask [false, true] 0).result = some ⟨1, 2, (1 : ℚ) / 2⟩ := by
  have h := c3_batch_insert_partial_failure [false, true] 0 (by decide)
  refine ⟨h.1 1 (by decide) rfl, h.2.1, h.2.2.1, ?_⟩
  have h2 := h.2.2.2
  simpa using h2

theorem find?_key_filter_ne (l : List (String × TaskRec)) (id id' : String)
    (hne : id' ≠ id) :
    (l.filter (fun p => p.1 != id)).find? (fun p => p.1 == id') =
      l.find? (fun p => p.1 == id') := by
  induction l with
  | nil => rfl
  | cons p ps ih =>
    by_cases hp : p.1 = id
    · have h1 : (p.1 != id) = false := by simp [hp]
      have h2 : (p.1 == id') = false := by
        apply beq_eq_false_iff_ne.mpr
        rw [hp]
        exact fun h => hne h.symm
      simp [List.filter_cons, List.find?_cons, h1, h2, ih]
    · have h1 : (p.1 != id) = true := by simp [hp]
      cases hq : (p.1 == id') with
      | true => simp [List.filter_cons, h1, List.find?_cons, hq]
      | false => simp [List.filter_cons, h1, List.find?_cons, hq, ih]

theorem find?_key_filter_self (l : List (String × TaskRec)) (id : String) :
    (l.filter (fun p => p.1 != id)).find? (fun p => p.1 == id) = none := by
  induction l with
  | nil => rfl
  | cons p ps ih =>
    by_cases hp : p.1 = id
    · have h1 : (p.1 != id) = false := by simp [hp]
      simp [List.filter_cons, h1, ih]
    · have h1 : (p.1 != id) = true := by simp [hp]
      have h2 : (p.1 == id) = false := beq_eq_false_iff_ne.mpr hp
      simp [List.filter_cons, h1, List.find?_cons, h2, ih]

theorem lookupTask_delete_ne (s : TaskStore) (id id' : String) (h : id' ≠ id) :
    lookupTask (deleteTask s id) id' = lookupTask s id' := by
  unfold lookupTask deleteTask
  rw [find?_key_filter_ne s.records id id' h]

theorem lookupTask_delete_self (s : TaskStore) (id : String) :
    lookupTask (deleteTask s id) id = none := by
  unfold lookupTask deleteTask
  rw [find?_key_filter_self]
  rfl

theorem taskQualifies_delete_ne (s : TaskStore) (now : Nat) (maxAge : ℚ)
    (id id' : String) (h : id' ≠ id) :
    taskQualifies (deleteTask s id) now maxAge id' = taskQualifies s now maxAge id' := by
  unfold taskQualifies
  rw [lookupTask_delete_ne s id id' h]

theorem storeWF_delete (s : TaskStore) (id : String) (h : storeWF s) :
    storeWF (deleteTask s id) := by
  intro p hp ht
  exact h p (List.mem_of_mem_filter hp) ht

theorem lookupTask_some_mem {s : TaskStore} {id : String} {r : TaskRec}
    (h : lookupTask s id = some r) : ∃ p ∈ s.records, p.2 = r := by
  unfold lookupTask at h
  cases hf : s.records.find? (fun p => p.1 == id) with
  | none => rw [hf] at h; cases h
  | some p =>
    rw [hf] at h
    exact ⟨p, List.mem_of_find?_eq_some hf, by injection h⟩

theorem mem_index_delete {s : TaskStore} {id id' : String}
    (h : id' ∈ (deleteTask s id).index) : id' ∈ s.index ∧ id' ≠ id := by
  rw [deleteTask] at h
  obtain ⟨hm, hb⟩ := List.mem_filter.mp h
  exact ⟨hm, by simpa using hb⟩

theorem cleanupLoop_cons_none {now : Nat} {maxAge : ℚ} {id0 : String}
    {rest : List String} {s : TaskStore} {k : Nat} (h : lookupTask s id0 = none) :
    cleanupLoop now maxAge (id0 :: rest) s k = cleanupLoop now maxAge rest s k := by
  simp [cleanupLoop, h]

theorem cleanupLoop_cons_nonterminal {now : Nat} {maxAge : ℚ} {id0 : String}
    {rest : List String} {s : TaskStore} {k : Nat} {r : TaskRec}
    (h : lookupTask s id0 = some r) (ht : isTerminalStatus r.status = false) :
    cleanupLoop now maxAge (id0 :: rest) s k = cleanupLoop now maxAge rest s k := by
  simp [cleanupLoop, h, ht]

theorem cleanupLoop_cons_delete {now : Nat} {maxAge : ℚ} {id0 : String}
    {rest : List String} {s : TaskStore} {k : Nat} {r : TaskRec} {c : Nat}
    (h : lookupTask s id0 = some r) (ht : isTerminalStatus r.status = true)
    (hc : r.completed_at = some c)
    (hage : ((now : ℚ) - (c : ℚ)) / 3600 > maxAge) :
    cleanupLoop now maxAge (id0 :: rest) s k =
      cleanupLoop now maxAge rest (deleteTask s id0) (k + 1) := by
  simp [cleanupLoop, h, ht, hc, hage]

theorem cleanupLoop_cons_keep_young {now : Nat} {maxAge : ℚ} {id0 : String}
    {rest : List String} {s : TaskStore} {k : Nat} {r : TaskRec} {c : Nat}
    (h : lookupTask s id0 = some r) (ht : isTerminalStatus r.status = true)
    (hc : r.completed_at = some c)
    (hage : ¬(((now : ℚ) - (c : ℚ)) / 3600 > maxAge)) :
    cleanupLoop now maxAge (id0 :: rest) s k = cleanupLoop now maxAge rest s k := by
  simp [cleanupLoop, h, ht, hc, hage]

/-- After a cleanup pass over a snapshot covering every qualifying id of the
index, the pass completes without exception (given a well-formed store), the
store stays well-formed, and no indexed record qualifies any more. -/
theorem cleanupLoop_spec (now : Nat) (maxAge : ℚ) :
    ∀ (snapshot : List String) (s : TaskStore) (k : Nat),
      storeWF s →
      (∀ id, id ∈ s.index → taskQualifies s now maxAge id = true → id ∈ snapshot) →
      (cleanupLoop now maxAge snapshot s k).2.2 = true ∧
      storeWF (cleanupLoop now maxAge snapshot s k).1 ∧
      (∀ id, id ∈ (cleanupLoop now maxAge snapshot s k).1.index →
        taskQualifies (cleanupLoop now maxAge snapshot s k).1 now maxAge id = false) := by
  intro snapshot
  induction snapshot with
  | nil =>
    intro s k hwf hq
    rw [show cleanupLoop now maxAge [] s k = (s, k, true) from rfl]
    refine ⟨rfl, hwf, ?_⟩
    intro id hid
    cases hqv : taskQualifies s now maxAge id with
    | false => rfl
    | true => exact absurd (hq id hid hqv) (List.not_mem_nil id)
  | cons id0 rest ih =>
    intro s k hwf hq
    cases hl : lookupTask s id0 with
    | none =>
      rw [cleanupLoop_cons_none hl]
      apply ih s k hwf
      intro id hid hqv
      rcases List.mem_cons.mp (hq id hid hqv) with rfl | hm
      · rw [taskQualifies, hl] at hqv
        cases hqv
      · exact hm
    | some r =>
      by_cases ht : isTerminalStatus r.status = true
      · cases hc : r.completed_at with
        | none =>
          obtain ⟨p, hp, hpr⟩ := lookupTask_some_mem hl
          have hne := hwf p hp (by rw [hpr]; exact ht)
          rw [hpr] at hne
          exact absurd hc hne
        | some c =>
          by_cases hage : ((now : ℚ) - (c : ℚ)) / 3600 > maxAge
          · rw [cleanupLoop_cons_delete hl ht hc hage]
            apply ih (deleteTask s id0) (k + 1) (storeWF_delete s id0 hwf)
            intro id hid hqv
            obtain ⟨hmem, hne⟩ := mem_index_delete hid
            rw [taskQualifies_delete_ne s now maxAge id0 id hne] at hqv
            rcases List.mem_cons.mp (hq id hmem hqv) with rfl | hm
            · exact absurd rfl hne
            · exact hm
          · rw [cleanupLoop_cons_keep_young hl ht hc hage]
            apply ih s k hwf
            intro id hid hqv
            rcases List.mem_cons.mp (hq id hid hqv) with rfl | hm
            · simp only [taskQualifies, hl, hc, ht, Bool.true_and,
                decide_eq_true_eq] at hqv
              exact absurd hqv hage
            · exact hm
      · have ht' : isTerminalStatus r.status = false := by simpa using ht
        rw [cleanupLoop_cons_nonterminal hl ht']
        apply ih s k hwf
        intro id hid hqv
        rcases List.mem_cons.mp (hq id hid hqv) with rfl | hm
        · simp only [taskQualifies, hl, ht', Bool.false_and] at hqv
          cases hqv
        · exact hm

/-- A cleanup pass over a snapshot of which no id qualifies deletes nothing
and counts zero. -/
theorem cleanupLoop_nothing_qualifies (now : Nat) (maxAge : ℚ) :
    ∀ (snapshot : List String) (s : TaskStore) (k : Nat),
      storeWF s →
      (∀ id ∈ snapshot, taskQualifies s now maxAge id = false) →
      cleanupLoop now maxAge snapshot s k = (s, k, true) := by
  intro snapshot
  induction snapshot with
  | nil => intro s k _ _; rfl
  | cons id0 rest ih =>
    intro s k hwf hq
    have hq0 := hq id0 (List.mem_cons_self id0 rest)
    have hrest : ∀ id ∈ rest, taskQualifies s now maxAge id = false :=
      fun id h => hq id (List.mem_cons_of_mem _ h)
    cases hl : lookupTask s id0 with
    | none =>
      rw [cleanupLoop_cons_none hl]
      exact ih s k hwf hrest
    | some r =>
      by_cases ht : isTerminalStatus r.status = true
      · cases hc : r.completed_at with
        | none =>
          obtain ⟨p, hp, hpr⟩ := lookupTask_some_mem hl
          have hne := hwf p hp (by rw [hpr]; exact ht)
          rw [hpr] at hne
          exact absurd hc hne
        | some c =>
          have hage : ¬(((now : ℚ) - (c : ℚ)) / 3600 > maxAge) := by
            intro hgt
            simp [taskQualifies, hl, hc, ht, hgt] at hq0
          rw [cleanupLoop_cons_keep_young hl ht hc hage]
          exact ih s k hwf hrest
      · have ht' : isTerminalStatus r.status = false := by simpa using ht
        rw [cleanupLoop_cons_nonterminal hl ht']
        exact ih s k hwf hrest

/-- C9: task cleanup with `max_age_hours = 0` is idempotent.  For any
well-formed store state, running cleanup twice in a row (both passes reading
the same clock, with no interleaving operations) makes the second pass
delete nothing and return a count of 0: the first pass both deletes each
qualifying record and removes its id from the index set. -/
theorem c9_cleanup_idempotent :
    ∀ (s : TaskStore) (now : Nat), storeWF s →
      (cleanup_completed_tasks (cleanup_completed_tasks s 0 now).1 0 now).1 =
        (cleanup_completed_tasks s 0 now).1 ∧
      (cleanup_completed_tasks (cleanup_completed_tasks s 0 now).1 0 now).2 = 0 := by
  intro s now hwf
  obtain ⟨hok, hwf1, hnoq⟩ :=
    cleanupLoop_spec now 0 s.index s 0 hwf (fun id hid _ => hid)
  have h2 := cleanupLoop_nothing_qualifies now 0
    (cleanupLoop now 0 s.index s 0).1.index (cleanupLoop now 0 s.index s 0).1 0 hwf1
    (fun id h => hnoq id h)
  constructor
  · show (cleanupLoop now 0 (cleanupLoop now 0 s.index s 0).1.index
      (cleanupLoop now 0 s.index s 0).1 0).1 = (cleanupLoop now 0 s.index s 0).1
    rw [h2]
  · show (if (cleanupLoop now 0 (cleanupLoop now 0 s.index s 0).1.index
        (cleanupLoop now 0 s.index s 0).1 0).2.2
      then (cleanupLoop now 0 (cleanupLoop now 0 s.index s 0).1.index
        (cleanupLoop now 0 s.index s 0).1 0).2.1 else 0) = 0
    rw [h2]
    rfl

/-- C9 witness: a concrete well-formed store (one task completed at time 0,
one pending), cleaned twice at clock 7200 with threshold 0. -/
theorem c9_cleanup_idempotent_witness :
    (cleanup_completed_tasks
      (cleanup_completed_tasks
        ⟨[("a", ⟨"a", "batch_insert_data", "completed", 100, "m", 0, some 0, some 0, none⟩),
          ("b", ⟨"b", "insert_data", "pending", 0, "m", 0, none, none, none⟩)],
         ["a", "b"]⟩ 0 7200).1 0 7200).1 =
      (cleanup_completed_tasks
        ⟨[("a", ⟨"a", "batch_insert_data", "completed", 100, "m", 0, some 0, some 0, none⟩),
          ("b", ⟨"b", "insert_data", "pending", 0, "m", 0, none, none, none⟩)],
         ["a", "b"]⟩ 0 7200).1 ∧
    (cleanup_completed_tasks
      (cleanup_completed_tasks
        ⟨[("a", ⟨"a", "batch_insert_data", "completed", 100, "m", 0, some 0, some 0, none⟩),
          ("b", ⟨"b", "insert_data", "pending", 0, "m", 0, none, none, none⟩)],
         ["a", "b"]⟩ 0 7200).1 0 7200).2 = 0 :=
  c9_cleanup_idempotent _ 7200 (by unfold storeWF; decide)
